import Mathlib

/-!
A shallow embedding of the `stateless-rs` finite-state-machine library
(files `src/transition.rs`, `src/trigger_behaviour.rs`,
`src/state_representation.rs`, `src/transition_event.rs`,
`src/statemachine_error.rs`, `src/state_config.rs`, `src/builder.rs`,
`src/state_machine.rs`) together with theorems about its firing protocol.

Modelling conventions:

* Entry, exit and internal actions are Rust closures
  `FnMut(&Transition<S,T>, &mut O)`; they are embedded as pure functions
  `Transition S T → O → O` acting on the context object `O`.
* Global transition listeners are Rust closures `FnMut(&Transition<S,T>)`
  which cannot touch the context object; they are embedded as opaque
  values of type `Transition S T → Unit`, and their invocations are made
  observable through an explicit event trace.
* Every observable side effect of a firing (running one exit, entry or
  internal action, writing `current_state`, invoking one global
  listener) is recorded as an `Event` in the order the Rust code performs
  it; actions are identified by their position in their registration
  list, exactly the information the Rust code has about its opaque boxed
  closures.
* Rust `HashMap`s keyed by triggers are embedded as functions
  `T → Option _` (respectively `T → List _` for the internal-action map,
  whose `entry(trigger).or_default().push(..)` idiom makes the absent key
  and the empty list indistinguishable); `insert` is pointwise update.
* The `.expect("representations should all exist")` panics in
  `StateMachine::fireone` are modelled by an outer `Option`: a `none`
  result is a panic.
* `Rc`/`RefCell` aliasing of builder state representations: a
  configuration handle obtained from `config(state)` is used by applying
  a chain of `StateConfig` calls to the shared representation, which the
  pure model expresses as `StateMachineBuilder.config`. Whether some
  handle for a state is still alive when `build` runs (an `Rc` strong
  count above one) is runtime information outside the pure data, so
  `build` takes it as an explicit argument `alive : S → Bool`.
* The enumeration of the state domain done by `strum::EnumIter` in
  `StateMachineBuilder::new` is an explicit list argument `stateList`;
  theorems that need exhaustiveness assume `∀ s, s ∈ stateList`.
-/

namespace StatelessRS

/-- The `Transition` struct of `src/transition.rs`: source, destination
and trigger of one firing event. -/
structure Transition (S T : Type) where
  source : S
  destination : S
  trigger : T

/-- The constructor `Transition::new(source, trigger, destination)`. -/
def Transition.new {S T : Type} (source : S) (trigger : T) (destination : S) :
    Transition S T :=
  { source := source, destination := destination, trigger := trigger }

/-- The method `Transition::is_reentry`. -/
def Transition.is_reentry {S T : Type} [DecidableEq S] (t : Transition S T) : Bool :=
  t.source = t.destination

/-- The trigger-behaviour variants of `src/trigger_behaviour.rs`: either a
`TransitioningTriggerBehaviour` (which stores the trigger and an explicit
destination) or an `InternalTransitioningTriggerBehaviour` (which stores
only the trigger). -/
inductive TriggerBehaviour (S T : Type) where
  | Transitioning (trigger : T) (destination : S)
  | Internal (trigger : T)

/-- The `fire` method of the two behaviours: a transitioning behaviour
returns its stored destination and ignores the source, an internal
behaviour returns the source unchanged. -/
def TriggerBehaviour.fire {S T : Type} : TriggerBehaviour S T → S → S
  | .Transitioning _ destination, _ => destination
  | .Internal _, source => source

/-- One observable side effect of a firing.  `exitAction st i tr` is the
invocation of the `i`-th registered exit action of state `st`'s
representation with transition `tr`; similarly for entry and internal
actions (the latter also record which trigger's list the action came
from).  `stateWrite s` is the assignment `self.current_state = s`, and
`listener i tr` is the invocation of the `i`-th registered global
transition listener with `tr`. -/
inductive Event (S T : Type) where
  | exitAction (state : S) (idx : Nat) (tr : Transition S T)
  | stateWrite (state : S)
  | entryAction (state : S) (idx : Nat) (tr : Transition S T)
  | internalAction (state : S) (trigger : T) (idx : Nat) (tr : Transition S T)
  | listener (idx : Nat) (tr : Transition S T)

/-- The action type `Box<dyn FnMut(&Transition<S, T>, &mut O)>` of
`src/state_representation.rs`, embedded as a pure state transformer on
the context object. -/
def Action (S T O : Type) : Type :=
  Transition S T → O → O

/-- Run a list of actions in order on the context object, as the loops in
`StateRepresentation::enter`, `exit` and `fire_internal_actions` do. -/
def runActions {S T O : Type} (actions : List (Action S T O))
    (tr : Transition S T) (o : O) : O :=
  actions.foldl (fun acc action => action tr acc) o

/-- The error enum of `src/statemachine_error.rs`. -/
inductive StateMachineError (S T : Type) where
  | StateNotConfigured (state : S)
  | TriggerNotPermitted (state : S) (trigger : T)
  | ConfigStillInUse (state : S)
  | Unknown
deriving DecidableEq

/-- The `StateRepresentation` struct of `src/state_representation.rs`:
the represented state, the trigger-behaviour map, the ordered entry and
exit action lists, and the trigger-keyed internal action map. -/
structure StateRepresentation (S T O : Type) where
  state : S
  trigger_behaviours : T → Option (TriggerBehaviour S T)
  entry_actions : List (Action S T O)
  exit_actions : List (Action S T O)
  internal_actions : T → List (Action S T O)

namespace StateRepresentation

variable {S T O : Type}

/-- `StateRepresentation::new(state)`: empty behaviour map and action
lists. -/
def new (state : S) : StateRepresentation S T O :=
  { state := state
    trigger_behaviours := fun _ => none
    entry_actions := []
    exit_actions := []
    internal_actions := fun _ => [] }

/-- `StateRepresentation::add_trigger_behaviour`: `HashMap::insert`, which
replaces any existing entry for the trigger. -/
def add_trigger_behaviour [DecidableEq T] (rep : StateRepresentation S T O)
    (trigger : T) (behaviour : TriggerBehaviour S T) : StateRepresentation S T O :=
  { rep with
    trigger_behaviours := fun t =>
      if t = trigger then some behaviour else rep.trigger_behaviours t }

/-- `StateRepresentation::add_entry_action`: push onto the entry list. -/
def add_entry_action (rep : StateRepresentation S T O) (f : Action S T O) :
    StateRepresentation S T O :=
  { rep with entry_actions := rep.entry_actions ++ [f] }

/-- `StateRepresentation::add_exit_action`: push onto the exit list. -/
def add_exit_action (rep : StateRepresentation S T O) (f : Action S T O) :
    StateRepresentation S T O :=
  { rep with exit_actions := rep.exit_actions ++ [f] }

/-- `StateRepresentation::add_internal_action`:
`internal_actions.entry(trigger).or_default().push(f)`. -/
def add_internal_action [DecidableEq T] (rep : StateRepresentation S T O)
    (trigger : T) (f : Action S T O) : StateRepresentation S T O :=
  { rep with
    internal_actions := fun t =>
      if t = trigger then rep.internal_actions t ++ [f]
      else rep.internal_actions t }

/-- `StateRepresentation::get_behaviour`: look the trigger up, failing
with `TriggerNotPermitted` when absent (the behaviour is cloned out, so
the result is independent of the map). -/
def get_behaviour (rep : StateRepresentation S T O) (trigger : T) :
    Except (StateMachineError S T) (TriggerBehaviour S T) :=
  match rep.trigger_behaviours trigger with
  | none => .error (.TriggerNotPermitted rep.state trigger)
  | some b => .ok b

/-- `StateRepresentation::enter`: run all entry actions in registration
order; returns the updated context object and the emitted events. -/
def enter (rep : StateRepresentation S T O) (tr : Transition S T) (o : O) :
    O × List (Event S T) :=
  (runActions rep.entry_actions tr o,
   (List.range rep.entry_actions.length).map (fun i => Event.entryAction rep.state i tr))

/-- `StateRepresentation::exit`: run all exit actions in registration
order; returns the updated context object and the emitted events. -/
def exit (rep : StateRepresentation S T O) (tr : Transition S T) (o : O) :
    O × List (Event S T) :=
  (runActions rep.exit_actions tr o,
   (List.range rep.exit_actions.length).map (fun i => Event.exitAction rep.state i tr))

/-- `StateRepresentation::fire_internal_actions`: run the internal
actions registered for the transition's trigger (an absent key means no
actions run). -/
def fire_internal_actions (rep : StateRepresentation S T O)
    (tr : Transition S T) (o : O) : O × List (Event S T) :=
  let actions := rep.internal_actions tr.trigger
  (runActions actions tr o,
   (List.range actions.length).map
     (fun i => Event.internalAction rep.state tr.trigger i tr))

end StateRepresentation

/-- The `TransitionEventHandler` struct of `src/transition_event.rs`: an
ordered list of global listeners.  A listener is an opaque closure
receiving only the transition, embedded as a function into `Unit`. -/
structure TransitionEventHandler (S T : Type) where
  events : List (Transition S T → Unit)

namespace TransitionEventHandler

variable {S T : Type}

/-- `TransitionEventHandler::new`. -/
def new : TransitionEventHandler S T :=
  { events := [] }

/-- `TransitionEventHandler::add_event`: push a listener. -/
def add_event (h : TransitionEventHandler S T) (f : Transition S T → Unit) :
    TransitionEventHandler S T :=
  { events := h.events ++ [f] }

/-- `TransitionEventHandler::fire_events`: invoke every listener in
registration order with the transition; the invocations are the
observable outcome, recorded as events. -/
def fire_events (h : TransitionEventHandler S T) (tr : Transition S T) :
    List (Event S T) :=
  (List.range h.events.length).map (fun i => Event.listener i tr)

end TransitionEventHandler

/-- The `StateMachine` struct of `src/state_machine.rs`: current state,
the sealed table of state representations, the context object and the
global listener handler. -/
structure StateMachine (S T O : Type) where
  current_state : S
  state_representations : S → Option (StateRepresentation S T O)
  object : O
  transition_event : TransitionEventHandler S T

namespace StateMachine

variable {S T O : Type}

/-- `StateMachine::new` (crate-private constructor used by the builder). -/
def new (initial_state : S) (state_representations : S → Option (StateRepresentation S T O))
    (object : O) (transition_event : TransitionEventHandler S T) : StateMachine S T O :=
  { current_state := initial_state
    state_representations := state_representations
    object := object
    transition_event := transition_event }

/-- `StateMachine::state`. -/
def state (m : StateMachine S T O) : S :=
  m.current_state

/-- `StateMachine::representation`: look up the current state's
representation. -/
def representation (m : StateMachine S T O) : Option (StateRepresentation S T O) :=
  m.state_representations m.current_state

/-- `StateMachine::fireone`.  The result is `none` when one of the
`.expect("representations should all exist")` calls would panic;
otherwise it is the `Result` value together with the machine after the
call (unchanged on error) and the trace of observable side effects (empty
on error). -/
def fireone (m : StateMachine S T O) (trigger : T) :
    Option (Except (StateMachineError S T) Unit × StateMachine S T O × List (Event S T)) :=
  let current_state := m.current_state
  match m.representation with
  | none => none
  | some representation =>
    match representation.get_behaviour trigger with
    | .error e => some (.error e, m, [])
    | .ok behaviour =>
      match behaviour with
      | .Transitioning btrig bdest =>
        let destination := (TriggerBehaviour.Transitioning btrig bdest).fire current_state
        let transition := Transition.new current_state trigger destination
        let exited := representation.exit transition m.object
        let m1 : StateMachine S T O :=
          { m with current_state := transition.destination, object := exited.1 }
        match m1.representation with
        | none => none
        | some rep2 =>
          let entered := rep2.enter transition exited.1
          let listener_events := m.transition_event.fire_events transition
          some (.ok (), { m1 with object := entered.1 },
                exited.2 ++ [Event.stateWrite destination] ++ entered.2 ++ listener_events)
      | .Internal btrig =>
        let _ := (TriggerBehaviour.Internal btrig : TriggerBehaviour S T).fire current_state
        let transition := Transition.new current_state trigger current_state
        let fired := representation.fire_internal_actions transition m.object
        let listener_events := m.transition_event.fire_events transition
        some (.ok (), { m with object := fired.1 }, fired.2 ++ listener_events)

/-- `StateMachine::fire`: delegates to `fireone` (the queue is a TODO in
the source). -/
def fire (m : StateMachine S T O) (trigger : T) :
    Option (Except (StateMachineError S T) Unit × StateMachine S T O × List (Event S T)) :=
  m.fireone trigger

end StateMachine

/-- The `StateConfig` struct of `src/state_config.rs`: a configuration
handle wrapping (a shared reference to) one state's representation. -/
structure StateConfig (S T O : Type) where
  rep : StateRepresentation S T O

namespace StateConfig

variable {S T O : Type}

/-- `StateConfig::state`. -/
def state (c : StateConfig S T O) : S :=
  c.rep.state

/-- `StateConfig::permit`: register a transitioning behaviour for the
trigger. -/
def permit [DecidableEq T] (c : StateConfig S T O) (trigger : T)
    (destination_state : S) : StateConfig S T O :=
  { rep := c.rep.add_trigger_behaviour trigger
      (.Transitioning trigger destination_state) }

/-- `StateConfig::internal_transition`: the source registers an internal
behaviour for the trigger and DROPS the `internal_action` argument — the
closure is never passed to `add_internal_action` (the unused-variable
warning is silenced by `allow(unused_variables)` in `src/lib.rs`), so the
embedding faithfully ignores it. -/
def internal_transition [DecidableEq T] (c : StateConfig S T O) (trigger : T)
    (internal_action : Action S T O) : StateConfig S T O :=
  let _ := internal_action
  { rep := c.rep.add_trigger_behaviour trigger (.Internal trigger) }

/-- `StateConfig::on_entry`. -/
def on_entry (c : StateConfig S T O) (f : Action S T O) : StateConfig S T O :=
  { rep := c.rep.add_entry_action f }

/-- `StateConfig::on_exit`. -/
def on_exit (c : StateConfig S T O) (f : Action S T O) : StateConfig S T O :=
  { rep := c.rep.add_exit_action f }

end StateConfig

/-- The `StateMachineBuilder` struct of `src/builder.rs`.  `domain` is
the list of states produced by `S::iter()` in `new` (kept so that `build`
can iterate over the table), `states` is the table of shared state
representations. -/
structure StateMachineBuilder (S T O : Type) where
  initial_state : S
  domain : List S
  states : S → Option (StateRepresentation S T O)
  transition_event : TransitionEventHandler S T

namespace StateMachineBuilder

variable {S T O : Type}

/-- `StateMachineBuilder::new(initial_state)`: creates one fresh
representation for every state yielded by `S::iter()` (here the explicit
`stateList`) and an empty listener handler. -/
def new [DecidableEq S] (stateList : List S) (initial_state : S) :
    StateMachineBuilder S T O :=
  { initial_state := initial_state
    domain := stateList
    states := stateList.foldl
      (fun table state => fun s =>
        if s = state then some (StateRepresentation.new state) else table s)
      (fun _ => none)
    transition_event := TransitionEventHandler.new }

/-- Using `StateMachineBuilder::config(state)`: the returned handle
aliases the builder's representation for `state`, so applying a chain `f`
of `StateConfig` calls through the handle updates that representation in
place (states other than `state` are untouched; an absent entry — which
`config` would `panic` on — is left absent). -/
def config [DecidableEq S] (b : StateMachineBuilder S T O) (state : S)
    (f : StateConfig S T O → StateConfig S T O) : StateMachineBuilder S T O :=
  { b with
    states := fun s =>
      if s = state then (b.states s).map (fun rep => (f { rep := rep }).rep)
      else b.states s }

/-- `StateMachineBuilder::on_transitioned`: append a global listener. -/
def on_transitioned (b : StateMachineBuilder S T O) (f : Transition S T → Unit) :
    StateMachineBuilder S T O :=
  { b with transition_event := b.transition_event.add_event f }

/-- `StateMachineBuilder::build(state_object)`.  For each state in table
order, `unwrap_rc_and_refcell` succeeds exactly when no configuration
handle for that state is still alive (`Rc` strong count is one); the
first still-aliased state aborts the collect with `ConfigStillInUse`.
`alive s = true` models a handle for `s` retained past the call. -/
def build (b : StateMachineBuilder S T O) (alive : S → Bool) (state_object : O) :
    Except (StateMachineError S T) (StateMachine S T O) :=
  match b.domain.find? alive with
  | some state => .error (.ConfigStillInUse state)
  | none => .ok (StateMachine.new b.initial_state b.states state_object b.transition_event)

end StateMachineBuilder

/-- One configuration-phase operation performed on a builder:
`configure state f` is obtaining a handle via `config(state)`, applying
the chain `f` of `StateConfig` calls through it and dropping the handle;
`on_transitioned f` registers a global listener. -/
inductive BuilderStep (S T O : Type) where
  | configure (state : S) (f : StateConfig S T O → StateConfig S T O)
  | on_transitioned (f : Transition S T → Unit)

/-- Whether a configuration-phase operation configures the given state. -/
def BuilderStep.touches {S T O : Type} : BuilderStep S T O → S → Prop
  | .configure state _, s => state = s
  | .on_transitioned _, _ => False

/-- Apply a sequence of configuration-phase operations to a builder. -/
def applySteps {S T O : Type} [DecidableEq S] (b : StateMachineBuilder S T O) :
    List (BuilderStep S T O) → StateMachineBuilder S T O
  | [] => b
  | step :: steps =>
    match step with
    | .configure state f => applySteps (b.config state f) steps
    | .on_transitioned f => applySteps (b.on_transitioned f) steps

/-- Fire a sequence of triggers in order, keeping the machine that each
`fireone` call returns (on a `TriggerNotPermitted` error the machine is
returned unchanged, so the sequence continues from it); `none` when some
call panics. -/
def applyFires {S T O : Type} (m : StateMachine S T O) :
    List T → Option (StateMachine S T O)
  | [] => some m
  | t :: ts =>
    match m.fireone t with
    | none => none
    | some (_, m1, _) => applyFires m1 ts

/-- The two-state domain of the repository's test enum `State`. -/
inductive St where
  | State1
  | State2
deriving DecidableEq

/-- The trigger domain of the repository's test enum `Trigger`. -/
inductive Tr where
  | Trig
  | Trig2
deriving DecidableEq

/-- Scenario B of the spec (and the test
`statemachine_on_entry_fires_multiple_actions`): `State1` permits
`Trig → State2`; `State2` has an entry action adding `1` and a second
entry action adding `2`. -/
def scenarioB : StateMachineBuilder St Tr Nat :=
  ((StateMachineBuilder.new [St.State1, St.State2] St.State1).config St.State1
      (fun c => c.permit Tr.Trig St.State2)).config St.State2
      (fun c => (c.on_entry (fun _ o => o + 1)).on_entry (fun _ o => o + 2))

/-- The machine `scenarioB.build(0)` yields. -/
def machineB : StateMachine St Tr Nat :=
  StateMachine.new St.State1 scenarioB.states 0 TransitionEventHandler.new

/-- The representation of `State1` inside `machineB`. -/
def repB1 : StateRepresentation St Tr Nat :=
  (StateRepresentation.new St.State1).add_trigger_behaviour Tr.Trig
    (.Transitioning Tr.Trig St.State2)

/-- The representation of `State2` inside `machineB`. -/
def repB2 : StateRepresentation St Tr Nat :=
  ((StateRepresentation.new St.State2).add_entry_action (fun _ o => o + 1)).add_entry_action
    (fun _ o => o + 2)

/-- The builder of the test `internal_transition_fires`: `State1` gets an
internal transition on `Trig` whose action increments the context. -/
def builderInternal : StateMachineBuilder St Tr Nat :=
  (StateMachineBuilder.new [St.State1, St.State2] St.State1).config St.State1
    (fun c => c.internal_transition Tr.Trig (fun _ o => o + 1))

/-- The machine `builderInternal.build(0)` yields. -/
def machineInternal : StateMachine St Tr Nat :=
  StateMachine.new St.State1 builderInternal.states 0 TransitionEventHandler.new

/-- The representation of `State1` inside `machineInternal`. -/
def repInternal : StateRepresentation St Tr Nat :=
  (StateRepresentation.new St.State1).add_trigger_behaviour Tr.Trig (.Internal Tr.Trig)

/-- A machine built from an unconfigured builder: no state permits any
trigger. -/
def machineBare : StateMachine St Tr Nat :=
  StateMachine.new St.State1
    ((StateMachineBuilder.new [St.State1, St.State2] St.State1 :
      StateMachineBuilder St Tr Nat)).states 0 TransitionEventHandler.new

/-- A builder whose `State1` has a self-transition on `Trig`, an internal
behaviour on `Trig2`, and one entry action. -/
def builderSelf : StateMachineBuilder St Tr Nat :=
  (StateMachineBuilder.new [St.State1, St.State2] St.State1).config St.State1
    (fun c =>
      ((c.permit Tr.Trig St.State1).internal_transition Tr.Trig2
        (fun _ o => o)).on_entry (fun _ o => o + 1))

/-- The machine `builderSelf.build(0)` yields. -/
def machineSelf : StateMachine St Tr Nat :=
  StateMachine.new St.State1 builderSelf.states 0 TransitionEventHandler.new

/-- The representation of `State1` inside `machineSelf`. -/
def repSelf : StateRepresentation St Tr Nat :=
  (((StateRepresentation.new St.State1).add_trigger_behaviour Tr.Trig
      (.Transitioning Tr.Trig St.State1)).add_trigger_behaviour Tr.Trig2
      (.Internal Tr.Trig2)).add_entry_action (fun _ o => o + 1)

/-- A builder with one permitted transition and one global listener. -/
def builderListen : StateMachineBuilder St Tr Nat :=
  ((StateMachineBuilder.new [St.State1, St.State2] St.State1).config St.State1
      (fun c => c.permit Tr.Trig St.State2)).on_transitioned (fun _ => ())

/-- The machine `builderListen.build(0)` yields. -/
def machineListen : StateMachine St Tr Nat :=
  StateMachine.new St.State1 builderListen.states 0 builderListen.transition_event

variable {S T O : Type}

/-- Helper: resolving an unregistered trigger makes `fireone` return
`TriggerNotPermitted` (named after the representation's own state field)
with the machine unchanged and an empty effect trace. -/
theorem fireone_error_of_absent (m : StateMachine S T O)
    (rep : StateRepresentation S T O) (t : T)
    (hrep : m.representation = some rep)
    (habs : rep.trigger_behaviours t = none) :
    m.fireone t = some (.error (.TriggerNotPermitted rep.state t), m, []) := by
  unfold StateMachine.fireone
  rw [hrep]
  simp [StateRepresentation.get_behaviour, habs]

/-- Helper: the state table `StateMachineBuilder::new` creates holds a
fresh representation exactly for the enumerated states. -/
theorem new_states [DecidableEq S] (stateList : List S) (initial : S) (s : S) :
    (StateMachineBuilder.new stateList initial : StateMachineBuilder S T O).states s
      = if s ∈ stateList then some (StateRepresentation.new s) else none := by
  unfold StateMachineBuilder.new
  suffices h : ∀ (l : List S) (table : S → Option (StateRepresentation S T O)),
      (l.foldl (fun tb state => fun x =>
          if x = state then some (StateRepresentation.new state) else tb x) table) s
        = if s ∈ l then some (StateRepresentation.new s) else table s by
    simpa using h stateList (fun _ => none)
  intro l
  induction l with
  | nil => intro table; simp
  | cons a l ih =>
    intro table
    simp only [List.foldl_cons]
    rw [ih]
    by_cases hsl : s ∈ l
    · simp [hsl]
    · by_cases hsa : s = a
      · subst hsa; simp [hsl]
      · simp [hsl, hsa]

/-- Helper: configuration-phase operations never remove a state's entry
from the builder's table. -/
theorem applySteps_isSome [DecidableEq S] (steps : List (BuilderStep S T O))
    (b : StateMachineBuilder S T O) (s : S) (h : (b.states s).isSome) :
    ((applySteps b steps).states s).isSome := by
  induction steps generalizing b with
  | nil => exact h
  | cons step steps ih =>
    cases step with
    | configure state f =>
      refine ih _ ?_
      by_cases hs : s = state
      · subst hs
        simp only [StateMachineBuilder.config, if_pos rfl]
        cases hb : b.states s with
        | none => rw [hb] at h; simp at h
        | some rep => simp
      · simpa [StateMachineBuilder.config, hs] using h
    | on_transitioned f => exact ih _ h

/-- Helper: a state no configuration-phase operation touches keeps the
representation `StateMachineBuilder::new` gave it. -/
theorem applySteps_untouched [DecidableEq S] (steps : List (BuilderStep S T O))
    (b : StateMachineBuilder S T O) (s : S)
    (h : ∀ st ∈ steps, ¬ st.touches s) :
    (applySteps b steps).states s = b.states s := by
  induction steps generalizing b with
  | nil => rfl
  | cons step steps ih =>
    cases step with
    | configure state f =>
      have hne : ¬ s = state := by
        intro hs
        exact (h _ (List.mem_cons_self _ _)) (by simp [BuilderStep.touches, hs])
      have := ih (b.config state f) (fun st hst => h st (List.mem_cons_of_mem _ hst))
      rw [show applySteps b (.configure state f :: steps)
          = applySteps (b.config state f) steps from rfl]
      rw [this]
      simp [StateMachineBuilder.config, hne]
    | on_transitioned f =>
      exact ih _ (fun st hst => h st (List.mem_cons_of_mem _ hst))

/-- Helper: `fireone` never changes the table of state representations. -/
theorem fireone_state_reps (m : StateMachine S T O) (t : T)
    (res : Except (StateMachineError S T) Unit × StateMachine S T O × List (Event S T))
    (h : m.fireone t = some res) :
    res.2.1.state_representations = m.state_representations := by
  unfold StateMachine.fireone at h
  split at h
  · simp at h
  · rename_i rep hrep
    split at h
    · injection h with h2
      subst h2
      rfl
    · rename_i behaviour hbeh
      split at h
      · rename_i btrig bdest
        simp only [StateMachine.representation, TriggerBehaviour.fire,
          Transition.new] at h
        split at h
        · simp at h
        · injection h with h2
          subst h2
          rfl
      · injection h with h2
        subst h2
        rfl

/-- Helper: when every state has a representation, `fireone` never hits
an `.expect` panic. -/
theorem fireone_isSome (m : StateMachine S T O) (t : T)
    (h : ∀ s, (m.state_representations s).isSome) :
    ∃ res, m.fireone t = some res := by
  unfold StateMachine.fireone
  obtain ⟨rep, hrep⟩ := Option.isSome_iff_exists.mp (h m.current_state)
  rw [show m.representation = some rep from hrep]
  cases hb : rep.get_behaviour t with
  | error e =>
    simp only [hb]
    exact ⟨_, rfl⟩
  | ok behaviour =>
    cases behaviour with
    | Transitioning trg dest =>
      obtain ⟨rep2, hrep2⟩ := Option.isSome_iff_exists.mp (h dest)
      simp only [hb, StateMachine.representation, TriggerBehaviour.fire,
        Transition.new, hrep2]
      exact ⟨_, rfl⟩
    | Internal trg =>
      simp only [hb]
      exact ⟨_, rfl⟩

/-- Helper: a fire sequence on a fully represented machine never panics
and leaves the representation table intact. -/
theorem applyFires_isSome (ts : List T) (m : StateMachine S T O)
    (h : ∀ s, (m.state_representations s).isSome) :
    ∃ m', applyFires m ts = some m'
      ∧ m'.state_representations = m.state_representations := by
  induction ts generalizing m with
  | nil => exact ⟨m, rfl, rfl⟩
  | cons t ts ih =>
    obtain ⟨res, hres⟩ := fireone_isSome m t h
    obtain ⟨r1, m1, ev1⟩ := res
    have hpres := fireone_state_reps m t (r1, m1, ev1) hres
    obtain ⟨m', hm', hreps⟩ := ih m1
      (by intro s
          rw [show m1.state_representations = m.state_representations from hpres]
          exact h s)
    refine ⟨m', ?_, by rw [hreps]; exact hpres⟩
    unfold applyFires
    rw [hres]
    exact hm'

/-- Claim C1: the claim says that after `internal_transition(T, f)`,
firing `T` runs the internal action `f` on the context.  Evaluating the
code on the repository's own test `internal_transition_fires` (context
starts at `0`, `f` adds `1`, `Trig` is fired once) shows the fire
succeeds without entry or exit actions and without a state change, but
the context stays `0` — `f` was dropped by `internal_transition`, the
internal-action table is empty and the effect trace is empty — while the
test (and the claim) expect the context to become `1`. -/
theorem internal_transition_drops_action :
    ∃ m m' ev, builderInternal.build (fun _ => false) 0 = .ok m
      ∧ m.fire Tr.Trig = some (.ok (), m', ev)
      ∧ m'.state = St.State1
      ∧ m'.object = 0
      ∧ ¬ m'.object = 1
      ∧ ev = []
      ∧ ∃ rep, m.state_representations St.State1 = some rep
          ∧ rep.internal_actions Tr.Trig = [] :=
  ⟨_, _, _, rfl, rfl, rfl, rfl, by decide, rfl, _, rfl, rfl⟩

/-- Claim C2: firing a trigger that has no behaviour registered in the
current state's representation returns
`TriggerNotPermitted{state: current, trigger}` and produces no side
effect at all: the machine (current state and context object) is
returned unchanged and the effect trace is empty, so no entry, exit or
internal action runs and no global listener fires. -/
theorem fire_unpermitted_trigger_errors (m : StateMachine S T O)
    (rep : StateRepresentation S T O) (t : T)
    (hrep : m.representation = some rep)
    (hstate : rep.state = m.current_state)
    (habs : rep.trigger_behaviours t = none) :
    m.fireone t = some (.error (.TriggerNotPermitted m.current_state t), m, []) := by
  rw [← hstate]
  exact fireone_error_of_absent m rep t hrep habs

/-- Witness for claim C2 on the machine built from an unconfigured
builder, whose `State1` representation permits nothing. -/
theorem fire_unpermitted_trigger_errors_witness :
    machineBare.fireone Tr.Trig
      = some (.error (.TriggerNotPermitted St.State1 Tr.Trig), machineBare, []) :=
  fire_unpermitted_trigger_errors machineBare (StateRepresentation.new St.State1)
    Tr.Trig rfl rfl rfl

/-- Claim C3: a fire resolving to a `Transitioning` behaviour produces
exactly the effect trace: the source representation's exit actions in
registration order, then the write of `current_state` to the
destination, then the destination representation's entry actions in
registration order, then the global listeners in registration order; the
machine ends in the destination state with the context transformed by
exit actions before entry actions. -/
theorem fire_transitioning_effect_order (m : StateMachine S T O)
    (rep repD : StateRepresentation S T O) (t trg : T) (dest : S)
    (tr : Transition S T)
    (hrep : m.representation = some rep)
    (hbeh : rep.trigger_behaviours t = some (.Transitioning trg dest))
    (hrepD : m.state_representations dest = some repD)
    (htr : tr = Transition.new m.current_state t dest) :
    ∃ m', m.fireone t = some (.ok (), m',
        ((List.range rep.exit_actions.length).map
            (fun i => Event.exitAction rep.state i tr))
        ++ [Event.stateWrite dest]
        ++ ((List.range repD.entry_actions.length).map
            (fun i => Event.entryAction repD.state i tr))
        ++ ((List.range m.transition_event.events.length).map
            (fun i => Event.listener i tr)))
      ∧ m'.current_state = dest
      ∧ m'.object = runActions repD.entry_actions tr
          (runActions rep.exit_actions tr m.object) := by
  subst htr
  unfold StateMachine.fireone
  rw [hrep]
  simp only [StateRepresentation.get_behaviour, hbeh, TriggerBehaviour.fire,
    StateMachine.representation, Transition.new]
  simp only [hrepD]
  exact ⟨_, rfl, rfl, rfl⟩

/-- Witness for claim C3 on scenario B's machine: `State1` permits
`Trig → State2` and `State2` has two entry actions. -/
theorem fire_transitioning_effect_order_witness :
    ∃ m', machineB.fireone Tr.Trig = some (.ok (), m',
        ((List.range repB1.exit_actions.length).map
            (fun i => Event.exitAction repB1.state i
              (Transition.new St.State1 Tr.Trig St.State2)))
        ++ [Event.stateWrite St.State2]
        ++ ((List.range repB2.entry_actions.length).map
            (fun i => Event.entryAction repB2.state i
              (Transition.new St.State1 Tr.Trig St.State2)))
        ++ ((List.range machineB.transition_event.events.length).map
            (fun i => Event.listener i (Transition.new St.State1 Tr.Trig St.State2))))
      ∧ m'.current_state = St.State2
      ∧ m'.object = runActions repB2.entry_actions
          (Transition.new St.State1 Tr.Trig St.State2)
          (runActions repB1.exit_actions
            (Transition.new St.State1 Tr.Trig St.State2) machineB.object) :=
  fire_transitioning_effect_order machineB repB1 repB2 Tr.Trig Tr.Trig St.State2
    (Transition.new St.State1 Tr.Trig St.State2) rfl rfl rfl rfl

/-- Claim C4: `build` fails with `ConfigStillInUse` naming a state whose
configuration handle is still alive whenever one exists in the domain,
and succeeds — handing every state's representation over to the machine
unchanged — when no handle is retained. -/
theorem build_seals_configuration (b : StateMachineBuilder S T O)
    (alive : S → Bool) (o : O) :
    (∀ s, b.build alive o = .error (.ConfigStillInUse s) → alive s = true)
    ∧ ((∃ s ∈ b.domain, alive s = true) →
        ∃ s, alive s = true ∧ b.build alive o = .error (.ConfigStillInUse s))
    ∧ ((∀ s ∈ b.domain, alive s = false) →
        ∃ m, b.build alive o = .ok m ∧ m.state_representations = b.states
          ∧ m.current_state = b.initial_state) := by
  refine ⟨?_, ?_, ?_⟩
  · intro s h
    unfold StateMachineBuilder.build at h
    cases hf : b.domain.find? alive with
    | none => rw [hf] at h; simp at h
    | some s2 =>
      rw [hf] at h
      simp only [Except.error.injEq, StateMachineError.ConfigStillInUse.injEq] at h
      subst h
      exact List.find?_some hf
  · rintro ⟨s, hs, ha⟩
    cases hf : b.domain.find? alive with
    | none =>
      have := List.find?_eq_none.mp hf s hs
      simp [ha] at this
    | some s2 =>
      refine ⟨s2, List.find?_some hf, ?_⟩
      unfold StateMachineBuilder.build
      rw [hf]
  · intro h
    have hf : b.domain.find? alive = none :=
      List.find?_eq_none.mpr (fun x hx => by simp [h x hx])
    refine ⟨StateMachine.new b.initial_state b.states o b.transition_event,
      ?_, rfl, rfl⟩
    unfold StateMachineBuilder.build
    rw [hf]

/-- Witness for claim C4: with a handle retained for `State2`, `build`
fails naming an in-use state; with no handle retained it succeeds. -/
theorem build_seals_configuration_witness :
    (∃ s, decide (s = St.State2) = true
      ∧ (StateMachineBuilder.new [St.State1, St.State2] St.State1 :
          StateMachineBuilder St Tr Nat).build (fun s => decide (s = St.State2)) 0
        = .error (.ConfigStillInUse s))
    ∧ (∃ m, (StateMachineBuilder.new [St.State1, St.State2] St.State1 :
          StateMachineBuilder St Tr Nat).build (fun _ => false) 0 = .ok m
        ∧ m.state_representations = (StateMachineBuilder.new [St.State1, St.State2]
            St.State1 : StateMachineBuilder St Tr Nat).states
        ∧ m.current_state = (StateMachineBuilder.new [St.State1, St.State2]
            St.State1 : StateMachineBuilder St Tr Nat).initial_state) :=
  ⟨(build_seals_configuration _ _ 0).2.1 ⟨St.State2, by decide, by decide⟩,
   (build_seals_configuration _ (fun _ => false) 0).2.2 (fun x hx => rfl)⟩

/-- Claim C5: after building (with no retained handles) a machine from
`StateMachineBuilder::new` over a state list covering the whole domain,
followed by any configuration operations, any sequence of fires never
panics in the representation lookup, every state always has a
representation, and from a current state that no configuration step ever
touched every trigger fails with `TriggerNotPermitted` (and in
particular never with `StateNotConfigured`). -/
theorem every_state_represented_fire_total [DecidableEq S]
    (stateList : List S) (hcov : ∀ s, s ∈ stateList) (initial : S)
    (steps : List (BuilderStep S T O)) (o : O) (m : StateMachine S T O)
    (hbuild : ((applySteps (StateMachineBuilder.new stateList initial) steps)).build
        (fun _ => false) o = .ok m)
    (ts : List T) :
    ∃ m', applyFires m ts = some m'
      ∧ (∀ s, ∃ rep, m'.state_representations s = some rep)
      ∧ (∀ t, (∀ st ∈ steps, ¬ st.touches m'.current_state) →
          m'.fireone t = some (.error (.TriggerNotPermitted m'.current_state t), m', [])) := by
  have hfind : (applySteps (StateMachineBuilder.new stateList initial) steps).domain.find?
      (fun _ => false) = none :=
    List.find?_eq_none.mpr (fun x hx => by simp)
  unfold StateMachineBuilder.build at hbuild
  rw [hfind] at hbuild
  injection hbuild with hm
  subst hm
  have htot : ∀ s,
      (((applySteps (StateMachineBuilder.new stateList initial) steps) :
        StateMachineBuilder S T O).states s).isSome := by
    intro s
    apply applySteps_isSome
    rw [new_states]
    simp [hcov s]
  obtain ⟨m', hfires, hreps⟩ := applyFires_isSome ts
    (StateMachine.new (applySteps (StateMachineBuilder.new stateList initial) steps).initial_state
      (applySteps (StateMachineBuilder.new stateList initial) steps).states o
      (applySteps (StateMachineBuilder.new stateList initial) steps).transition_event) htot
  have hreps2 : m'.state_representations
      = (applySteps (StateMachineBuilder.new stateList initial) steps).states := hreps
  refine ⟨m', hfires, ?_, ?_⟩
  · intro s
    have := htot s
    rw [← hreps2] at this
    exact Option.isSome_iff_exists.mp this
  · intro t huntouched
    have hcur : m'.state_representations m'.current_state
        = some (StateRepresentation.new m'.current_state) := by
      rw [hreps2, applySteps_untouched steps _ _ huntouched, new_states]
      simp [hcov m'.current_state]
    exact fireone_error_of_absent m' (StateRepresentation.new m'.current_state) t hcur rfl

/-- Witness for claim C5 on the two-state domain with no configuration
steps and a one-trigger fire sequence. -/
theorem every_state_represented_fire_total_witness :
    ∃ m', applyFires (StateMachine.new
        (applySteps (StateMachineBuilder.new [St.State1, St.State2] St.State1)
          ([] : List (BuilderStep St Tr Nat))).initial_state
        (applySteps (StateMachineBuilder.new [St.State1, St.State2] St.State1)
          ([] : List (BuilderStep St Tr Nat))).states 0
        (applySteps (StateMachineBuilder.new [St.State1, St.State2] St.State1)
          ([] : List (BuilderStep St Tr Nat))).transition_event) [Tr.Trig]
      = some m'
      ∧ (∀ s, ∃ rep, m'.state_representations s = some rep)
      ∧ (∀ t, (∀ st ∈ ([] : List (BuilderStep St Tr Nat)), ¬ st.touches m'.current_state) →
          m'.fireone t = some (.error (.TriggerNotPermitted m'.current_state t), m', [])) :=
  every_state_represented_fire_total [St.State1, St.State2]
    (fun s => by cases s <;> simp) St.State1 [] 0 _ rfl [Tr.Trig]

/-- Claim C6: a `Transitioning` behaviour whose destination equals the
current state re-enters it: the fire runs the state's exit actions, then
the state write, then the same state's entry actions (then the
listeners), with the context transformed by both action lists — unlike
an `Internal` behaviour on the same representation, whose fire emits no
exit or entry event at all. -/
theorem self_transition_runs_exit_and_entry (m : StateMachine S T O)
    (rep : StateRepresentation S T O) (t trg : T) (tr : Transition S T)
    (hrep : m.representation = some rep)
    (hbeh : rep.trigger_behaviours t = some (.Transitioning trg m.current_state))
    (htr : tr = Transition.new m.current_state t m.current_state) :
    (∃ m', m.fireone t = some (.ok (), m',
        ((List.range rep.exit_actions.length).map
            (fun i => Event.exitAction rep.state i tr))
        ++ [Event.stateWrite m.current_state]
        ++ ((List.range rep.entry_actions.length).map
            (fun i => Event.entryAction rep.state i tr))
        ++ ((List.range m.transition_event.events.length).map
            (fun i => Event.listener i tr)))
      ∧ m'.current_state = m.current_state
      ∧ m'.object = runActions rep.entry_actions tr
          (runActions rep.exit_actions tr m.object))
    ∧ (∀ t2 trg2, rep.trigger_behaviours t2 = some (.Internal trg2) →
        ∃ m2 ev2, m.fireone t2 = some (.ok (), m2, ev2)
          ∧ ∀ e ∈ ev2, (∀ s i tr2, e ≠ Event.exitAction s i tr2)
              ∧ (∀ s i tr2, e ≠ Event.entryAction s i tr2)) := by
  constructor
  · subst htr
    unfold StateMachine.fireone
    rw [hrep]
    simp only [StateRepresentation.get_behaviour, hbeh, TriggerBehaviour.fire,
      StateMachine.representation, Transition.new]
    rw [show m.state_representations m.current_state = some rep from hrep]
    exact ⟨_, rfl, rfl, rfl⟩
  · intro t2 trg2 hbeh2
    unfold StateMachine.fireone
    rw [hrep]
    simp only [StateRepresentation.get_behaviour, hbeh2]
    refine ⟨_, _, rfl, ?_⟩
    intro e he
    simp only [StateRepresentation.fire_internal_actions,
      TransitionEventHandler.fire_events, List.mem_append, List.mem_map,
      List.mem_range] at he
    rcases he with ⟨i, hi, rfl⟩ | ⟨i, hi, rfl⟩
    · exact ⟨fun s j tr2 => by simp, fun s j tr2 => by simp⟩
    · exact ⟨fun s j tr2 => by simp, fun s j tr2 => by simp⟩

/-- Witness for claim C6 on a machine whose `State1` permits a
self-transition on `Trig`, has an internal behaviour on `Trig2` and one
entry action. -/
theorem self_transition_runs_exit_and_entry_witness :
    (∃ m', machineSelf.fireone Tr.Trig = some (.ok (), m',
        ((List.range repSelf.exit_actions.length).map
            (fun i => Event.exitAction repSelf.state i
              (Transition.new St.State1 Tr.Trig St.State1)))
        ++ [Event.stateWrite St.State1]
        ++ ((List.range repSelf.entry_actions.length).map
            (fun i => Event.entryAction repSelf.state i
              (Transition.new St.State1 Tr.Trig St.State1)))
        ++ ((List.range machineSelf.transition_event.events.length).map
            (fun i => Event.listener i (Transition.new St.State1 Tr.Trig St.State1))))
      ∧ m'.current_state = St.State1
      ∧ m'.object = runActions repSelf.entry_actions
          (Transition.new St.State1 Tr.Trig St.State1)
          (runActions repSelf.exit_actions
            (Transition.new St.State1 Tr.Trig St.State1) machineSelf.object))
    ∧ (∀ t2 trg2, repSelf.trigger_behaviours t2 = some (.Internal trg2) →
        ∃ m2 ev2, machineSelf.fireone t2 = some (.ok (), m2, ev2)
          ∧ ∀ e ∈ ev2, (∀ s i tr2, e ≠ Event.exitAction s i tr2)
              ∧ (∀ s i tr2, e ≠ Event.entryAction s i tr2)) :=
  self_transition_runs_exit_and_entry machineSelf repSelf Tr.Trig Tr.Trig
    (Transition.new St.State1 Tr.Trig St.State1) rfl rfl rfl

/-- Claim C7: registering a trigger behaviour replaces any earlier one
for the same trigger without error — through `add_trigger_behaviour`,
`permit` and `internal_transition` alike, registering twice equals
registering only the second — and looking the trigger up yields exactly
the (single) behaviour registered last. -/
theorem trigger_behaviour_last_registration_wins [DecidableEq T]
    (rep : StateRepresentation S T O) (c : StateConfig S T O) (t : T)
    (b1 b2 : TriggerBehaviour S T) (d1 d2 : S) (f1 f2 : Action S T O) :
    (rep.add_trigger_behaviour t b1).add_trigger_behaviour t b2
        = rep.add_trigger_behaviour t b2
    ∧ (c.permit t d1).permit t d2 = c.permit t d2
    ∧ (c.internal_transition t f1).internal_transition t f2
        = c.internal_transition t f2
    ∧ (rep.add_trigger_behaviour t b1).get_behaviour t = .ok b1 := by
  have key : ∀ (r : StateRepresentation S T O) (bb1 bb2 : TriggerBehaviour S T),
      (r.add_trigger_behaviour t bb1).add_trigger_behaviour t bb2
        = r.add_trigger_behaviour t bb2 := by
    intro r bb1 bb2
    unfold StateRepresentation.add_trigger_behaviour
    congr 1
    funext x
    by_cases hx : x = t <;> simp [hx]
  refine ⟨key rep b1 b2, ?_, ?_, ?_⟩
  · unfold StateConfig.permit
    rw [key]
  · unfold StateConfig.internal_transition
    rw [key]
  · unfold StateRepresentation.get_behaviour StateRepresentation.add_trigger_behaviour
    simp

/-- Witness for claim C7 at concrete behaviours, destinations and
actions on the two-state domain. -/
theorem trigger_behaviour_last_registration_wins_witness :
    ((StateRepresentation.new St.State1 : StateRepresentation St Tr Nat).add_trigger_behaviour
        Tr.Trig (.Internal Tr.Trig)).add_trigger_behaviour Tr.Trig
        (.Transitioning Tr.Trig St.State2)
      = (StateRepresentation.new St.State1).add_trigger_behaviour Tr.Trig
        (.Transitioning Tr.Trig St.State2)
    ∧ ((StateConfig.mk (StateRepresentation.new St.State1) :
        StateConfig St Tr Nat).permit Tr.Trig St.State1).permit Tr.Trig St.State2
      = (StateConfig.mk (StateRepresentation.new St.State1)).permit Tr.Trig St.State2
    ∧ ((StateConfig.mk (StateRepresentation.new St.State1) :
        StateConfig St Tr Nat).internal_transition Tr.Trig (fun _ o => o)).internal_transition
        Tr.Trig (fun _ o => o + 1)
      = (StateConfig.mk (StateRepresentation.new St.State1)).internal_transition
        Tr.Trig (fun _ o => o + 1)
    ∧ ((StateRepresentation.new St.State1 : StateRepresentation St Tr Nat).add_trigger_behaviour
        Tr.Trig (.Internal Tr.Trig)).get_behaviour Tr.Trig = .ok (.Internal Tr.Trig) :=
  trigger_behaviour_last_registration_wins (StateRepresentation.new St.State1)
    (StateConfig.mk (StateRepresentation.new St.State1)) Tr.Trig
    (.Internal Tr.Trig) (.Transitioning Tr.Trig St.State2) St.State1 St.State2
    (fun _ o => o) (fun _ o => o + 1)

/-- Claim C8: every successful fire ends its effect trace with exactly
one invocation per registered global listener, indexed in registration
order and all receiving the Transition of that firing (source, trigger
and resulting current state), with no listener invocation anywhere
earlier in the trace; a failed fire has an empty trace, so no listener
runs. -/
theorem listeners_fire_once_per_success (m : StateMachine S T O) (t : T) :
    (∀ m' ev, m.fireone t = some (.ok (), m', ev) →
        ∃ pre, ev = pre ++ (List.range m.transition_event.events.length).map
            (fun i => Event.listener i (Transition.new m.current_state t m'.current_state))
          ∧ ∀ e ∈ pre, ∀ i tr2, e ≠ Event.listener i tr2)
    ∧ (∀ err m' ev, m.fireone t = some (.error err, m', ev) → ev = []) := by
  constructor
  · intro m' ev h
    unfold StateMachine.fireone at h
    split at h
    · simp at h
    · rename_i rep hrep
      split at h
      · simp at h
      · rename_i behaviour hbeh
        split at h
        · rename_i btrig bdest
          simp only [StateMachine.representation, TriggerBehaviour.fire,
            Transition.new] at h
          split at h
          · simp at h
          · rename_i rep2 hrep2
            simp only [Option.some_inj, Prod.mk.injEq, true_and] at h
            obtain ⟨hm, hev⟩ := h
            subst hm
            subst hev
            refine ⟨(rep.exit ⟨m.current_state, bdest, t⟩ m.object).2
                ++ [Event.stateWrite bdest]
                ++ (rep2.enter ⟨m.current_state, bdest, t⟩
                    (rep.exit ⟨m.current_state, bdest, t⟩ m.object).1).2,
              rfl, ?_⟩
            intro e he
            simp only [StateRepresentation.exit, StateRepresentation.enter,
              List.mem_append, List.mem_map, List.mem_range,
              List.mem_singleton] at he
            rcases he with (⟨i, hi, rfl⟩ | rfl) | ⟨i, hi, rfl⟩ <;>
              intro j tr2 <;> simp
        · rename_i btrig
          simp only [StateMachine.representation, TriggerBehaviour.fire,
            Transition.new, Option.some_inj, Prod.mk.injEq, true_and] at h
          obtain ⟨hm, hev⟩ := h
          subst hm
          subst hev
          refine ⟨(rep.fire_internal_actions ⟨m.current_state, m.current_state, t⟩ m.object).2,
            rfl, ?_⟩
          intro e he
          simp only [StateRepresentation.fire_internal_actions,
            List.mem_map, List.mem_range] at he
          obtain ⟨i, hi, rfl⟩ := he
          intro j tr2
          simp
  · intro err m' ev h
    unfold StateMachine.fireone at h
    split at h
    · simp at h
    · rename_i rep hrep
      split at h
      · simp only [Option.some_inj, Prod.mk.injEq] at h
        exact h.2.2.symm
      · rename_i behaviour hbeh
        split at h
        · rename_i btrig bdest
          simp only [StateMachine.representation, TriggerBehaviour.fire,
            Transition.new] at h
          split at h
          · simp at h
          · simp at h
        · simp at h

/-- Witness for claim C8 on a machine with one permitted transition and
one registered global listener. -/
theorem listeners_fire_once_per_success_witness :
    (∀ m' ev, machineListen.fireone Tr.Trig = some (.ok (), m', ev) →
        ∃ pre, ev = pre ++ (List.range machineListen.transition_event.events.length).map
            (fun i => Event.listener i (Transition.new St.State1 Tr.Trig m'.current_state))
          ∧ ∀ e ∈ pre, ∀ i tr2, e ≠ Event.listener i tr2)
    ∧ (∀ err m' ev, machineListen.fireone Tr.Trig = some (.error err, m', ev) → ev = []) :=
  listeners_fire_once_per_success machineListen Tr.Trig

/-- Claim C9: in scenario B (`State1` permits `Trig → State2`, `State2`
has entry actions adding `1` and then `2`, context starts at `0`),
firing `Trig` succeeds, the state becomes `State2` and the context
equals `3`: entry actions accumulate and each runs once. -/
theorem scenarioB_entry_actions_accumulate :
    ∃ m m' ev, scenarioB.build (fun _ => false) 0 = .ok m
      ∧ m.state = St.State1
      ∧ m.fire Tr.Trig = some (.ok (), m', ev)
      ∧ m'.state = St.State2
      ∧ m'.object = 3 :=
  ⟨_, _, _, rfl, rfl, rfl, rfl, rfl⟩

/-- Claim C10: firing a trigger whose behaviour is `Internal` while the
representation has no internal actions for it succeeds, returns the
machine completely unchanged, and its whole effect trace is the global
listener invocations; and in general `fire_internal_actions` only ever
emits internal-action events for the transition's own trigger, so
actions registered for a different trigger never run. -/
theorem internal_fire_without_actions_is_noop (m : StateMachine S T O)
    (rep : StateRepresentation S T O) (t trg : T)
    (hrep : m.representation = some rep)
    (hbeh : rep.trigger_behaviours t = some (.Internal trg))
    (hno : rep.internal_actions t = []) :
    m.fireone t = some (.ok (), m,
        (List.range m.transition_event.events.length).map
          (fun i => Event.listener i (Transition.new m.current_state t m.current_state)))
    ∧ (∀ (rep2 : StateRepresentation S T O) (tr : Transition S T) (o : O)
        (s : S) (tg : T) (i : Nat) (tr2 : Transition S T),
        Event.internalAction s tg i tr2 ∈ (rep2.fire_internal_actions tr o).2 →
          tg = tr.trigger) := by
  constructor
  · unfold StateMachine.fireone
    rw [hrep]
    simp only [StateRepresentation.get_behaviour, hbeh]
    simp [StateRepresentation.fire_internal_actions, hno, runActions,
      TransitionEventHandler.fire_events, Transition.new]
  · intro rep2 tr o s tg i tr2 hmem
    simp only [StateRepresentation.fire_internal_actions, List.mem_map,
      List.mem_range] at hmem
    obtain ⟨j, hj, he⟩ := hmem
    cases he
    rfl

/-- Witness for claim C10 on the machine whose `State1` has an internal
behaviour on `Trig` with (because the source drops the configured
closure) no internal actions registered. -/
theorem internal_fire_without_actions_is_noop_witness :
    machineInternal.fireone Tr.Trig = some (.ok (), machineInternal,
        (List.range machineInternal.transition_event.events.length).map
          (fun i => Event.listener i (Transition.new St.State1 Tr.Trig St.State1)))
    ∧ (∀ (rep2 : StateRepresentation St Tr Nat) (tr : Transition St Tr) (o : Nat)
        (s : St) (tg : Tr) (i : Nat) (tr2 : Transition St Tr),
        Event.internalAction s tg i tr2 ∈ (rep2.fire_internal_actions tr o).2 →
          tg = tr.trigger) :=
  internal_fire_without_actions_is_noop machineInternal repInternal Tr.Trig Tr.Trig
    rfl rfl rfl

end StatelessRS
